import Mathlib

/-!
Verification of the `scrape_novel` repository (three JavaScript files:
`scrape_novel.js` — the dispatcher, `scrape_novel_ncode.js` — the ncode
adapter, and the kakuyomu adapter script) against its natural-language
specification.

The JavaScript string functions are embedded as executable Lean functions
over `List Char` / `String`.  Regex-based extraction in the source uses only
patterns of the shape "literal, run of non-delimiter characters, literal",
whose backtracking semantics collapse to first-delimiter searches; each
matcher below documents the pattern it embeds.  Global regex scans
(`exec` loops / `replace(..., /g)`) advance past each match, which is
embedded with a skip counter so that every definition is structurally
recursive and kernel-computable.
-/

namespace Scrape

/-- First index (0-based) at which `pat` occurs as a contiguous sublist of
`hay`; `none` if it does not occur.  Embeds JavaScript
`hay.indexOf(pat)` (which returns -1 for no occurrence). -/
def findSub (hay pat : List Char) : Option Nat :=
  match hay with
  | [] => if pat = [] then some 0 else none
  | _ :: cs =>
    if pat.isPrefixOf hay then some 0
    else (findSub cs pat).map (· + 1)

/-- `hay.indexOf(pat, from)` — first occurrence index that is ≥ `start`. -/
def findFrom (hay pat : List Char) (start : Nat) : Option Nat :=
  (findSub (hay.drop start) pat).map (· + start)

/-- Auxiliary scanner for global literal replacement: while the skip
counter is positive the characters of an already-replaced match are
consumed without rescanning (JavaScript `String.replace` with a global
pattern does not rescan replacement text and continues after each match). -/
def replAux (pat repl : List Char) : List Char → Nat → List Char
  | [], _ => []
  | _ :: cs, k + 1 => replAux pat repl cs k
  | c :: cs, 0 =>
    if pat ≠ [] ∧ pat.isPrefixOf (c :: cs) then
      repl ++ replAux pat repl cs (pat.length - 1)
    else
      c :: replAux pat repl cs 0

/-- JavaScript `text.replace(/pat/g, repl)` for a literal pattern:
replace every non-overlapping occurrence, left to right. -/
def replaceAllL (pat repl s : List Char) : List Char :=
  replAux pat repl s 0

/-- JavaScript `text.replace(pat, repl)` with a *string* pattern:
replace only the first occurrence (used for the title-suffix strip). -/
def replaceFirstL (pat repl : List Char) : List Char → List Char
  | [] => []
  | c :: cs =>
    if pat ≠ [] ∧ pat.isPrefixOf (c :: cs) then
      repl ++ (c :: cs).drop pat.length
    else
      c :: replaceFirstL pat repl cs

/-- Whitespace as trimmed by `String.prototype.trim` (restricted to the
ASCII whitespace that can actually occur in the scanned text). -/
def isWs (c : Char) : Bool := c = ' ' ∨ c = '\t' ∨ c = '\r' ∨ c = '\n'

/-- JavaScript `line.trim()`. -/
def trimL (l : List Char) : List Char :=
  ((l.dropWhile isWs).reverse.dropWhile isWs).reverse

/-- JavaScript `text.split('\n')`. -/
def splitNl : List Char → List (List Char)
  | [] => [[]]
  | c :: cs =>
    if c = '\n' then [] :: splitNl cs
    else
      match splitNl cs with
      | l :: ls => (c :: l) :: ls
      | [] => [[c]]

/-- `decodeHtmlEntities` of both adapter scripts (the two files contain the
same function): six sequential global replacements of the fixed entity
table.  `text.replace(/&nbsp;/g,' ').replace(/&amp;/g,'&').replace(/&lt;/g,'<')
.replace(/&gt;/g,'>').replace(/&quot;/g,'"').replace(/&#39;/g,"'")`. -/
def decodeL (s : List Char) : List Char :=
  replaceAllL "&#39;".toList "'".toList
    (replaceAllL "&quot;".toList "\"".toList
      (replaceAllL "&gt;".toList ">".toList
        (replaceAllL "&lt;".toList "<".toList
          (replaceAllL "&amp;".toList "&".toList
            (replaceAllL "&nbsp;".toList " ".toList s)))))

/-- String-level `decodeHtmlEntities`. -/
def decodeHtmlEntities (text : String) : String :=
  String.mk (decodeL text.toList)

/-- Scanner for `text.replace(/<[^>]*>/g, '')`: on `<`, the match runs to
the first following `>` (the run cannot cross a `>`); with no closing `>`
there is no match at this position and the character passes through. -/
def stripAux : List Char → Nat → List Char
  | [], _ => []
  | _ :: cs, k + 1 => stripAux cs k
  | c :: cs, 0 =>
    if c = '<' then
      match findSub cs ">".toList with
      | some j => stripAux cs (j + 1)
      | none => c :: stripAux cs 0
    else
      c :: stripAux cs 0

/-- `stripHtmlTags` of both adapter scripts: remove every `<`…`>` delimited
substring, non-greedily, left to right. -/
def stripL (s : List Char) : List Char := stripAux s 0

/-- String-level `stripHtmlTags`. -/
def stripHtmlTags (text : String) : String :=
  String.mk (stripL text.toList)

/-- Scanner for `content.replace(/<br[^>]*>/g, '\n')`: on `<br`, the match
runs to the first following `>`; with no closing `>` there is no match. -/
def brAux : List Char → Nat → List Char
  | [], _ => []
  | _ :: cs, k + 1 => brAux cs k
  | c :: cs, 0 =>
    if "<br".toList.isPrefixOf (c :: cs) then
      match findSub (cs.drop 2) ">".toList with
      | some j => '\n' :: brAux cs (2 + j + 1)
      | none => c :: brAux cs 0
    else
      c :: brAux cs 0

/-- The `<br>`-to-newline conversion step of both `extractNovelContent`s. -/
def brToNewlines (s : List Char) : List Char := brAux s 0

/-- The final line cleanup of both `extractNovelContent`s:
`content.split('\n').map(l => l.trim()).filter(l => l.length > 0).join('\n')`. -/
def cleanLines (s : List Char) : List Char :=
  List.intercalate "\n".toList
    (((splitNl s).map trimL).filter (fun l => l ≠ []))

/-- The shared post-selection pipeline of both adapters, in source order:
`<br>` tags to newlines, then tag stripping, then entity decoding, then
line cleanup. -/
def normalizeContent (c : List Char) : String :=
  String.mk (cleanLines (decodeL (stripL (brToNewlines c))))

/-- Attempted match of `/<title>([^<]*)<\/title>/` at the start of `s`:
after the literal `<title>` the capture is the run of non-`<` characters,
which must be followed immediately by `</title>` (a shorter capture would
leave a non-`<` character where `</title>` must start, so backtracking
cannot succeed). -/
def matchTitleAt (s : List Char) : Option (List Char) :=
  if "<title>".toList.isPrefixOf s then
    match findSub (s.drop 7) "<".toList with
    | none => none
    | some j =>
      if "</title>".toList.isPrefixOf ((s.drop 7).drop j) then
        some ((s.drop 7).take j)
      else none
  else none

/-- Leftmost match of the title regex: the engine advances one position on
every failed start position. -/
def findTitle : List Char → Option (List Char)
  | [] => none
  | c :: cs =>
    match matchTitleAt (c :: cs) with
    | some t => some t
    | none => findTitle cs

/-- The deduplicating accumulation loop shared by both
`extractChapterLinks`s: `if (!links.includes(link)) links.push(link)`. -/
def dedupAcc : List String → List String → List String
  | acc, [] => acc
  | acc, l :: ls => if l ∈ acc then dedupAcc acc ls else dedupAcc (acc ++ [l]) ls

/-- Lexicographic strict comparison on character lists by code point,
embedding the comparison performed by the default `Array.prototype.sort`
comparator (the scanned URLs contain no surrogate pairs, so UTF-16
code-unit order and code-point order agree). -/
def strLtB : List Char → List Char → Bool
  | _, [] => false
  | [], _ :: _ => true
  | a :: as, b :: bs =>
    if a.toNat < b.toNat then true
    else if b.toNat < a.toNat then false
    else strLtB as bs

/-- The (non-strict) order `links.sort()` sorts by. -/
def sortLe (a b : String) : Prop := strLtB b.toList a.toList = false

instance : DecidableRel sortLe := fun a b => by unfold sortLe; infer_instance


end Scrape

namespace Ncode

open Scrape

/-- `const startPattern = /<div class="js-novel-text p-novel__text">/` —
a literal pattern, so `html.search(startPattern)` is a substring search. -/
def startPattern : List Char := "<div class=\"js-novel-text p-novel__text\">".toList

/-- The `while (divCount > 0 && currentIndex !== -1)` loop of
`extractNovelContent` in `scrape_novel_ncode.js`, transliterated:
`nextDiv = content.indexOf('<div', currentIndex + 1)`,
`nextEndDiv = content.indexOf('</div>', currentIndex)`; if there is no
further `</div>` the loop breaks, an earlier `<div` increments the
counter, otherwise the counter is decremented and, on reaching zero,
`endIndex` is set to that `</div>` position.  Inside the loop
`currentIndex` is always a found index, never -1, so the `!== -1` part of
the guard is only the entry check (handled by the caller).  The loop
always terminates — each iteration either advances `currentIndex` or
lowers `divCount` — and the explicit fuel `2 * content.length + 2`
strictly bounds the possible number of iterations. -/
def divScanLoop (content : List Char) : Nat → Nat → Nat → Option Nat → Option Nat
  | 0, _, _, endIndex => endIndex
  | fuel + 1, divCount, currentIndex, endIndex =>
    if divCount = 0 then endIndex
    else
      match findFrom content "<div".toList (currentIndex + 1),
            findFrom content "</div>".toList currentIndex with
      | _, none => endIndex
      | some nextDiv, some nextEndDiv =>
        if nextDiv < nextEndDiv then
          divScanLoop content fuel (divCount + 1) nextDiv endIndex
        else
          divScanLoop content fuel (divCount - 1) nextEndDiv
            (if divCount - 1 = 0 then some nextEndDiv else endIndex)
      | none, some nextEndDiv =>
        divScanLoop content fuel (divCount - 1) nextEndDiv
          (if divCount - 1 = 0 then some nextEndDiv else endIndex)

/-- Boundary selection of the ncode `extractNovelContent`: find the marker
opening tag, set `content = html.substring(startMatch)`, initialise
`divCount = 1` and `currentIndex = content.indexOf('<div', 1)` (the first
`<div` at index ≥ 1), run the counting loop, and cut at `endIndex` when
one was set (`endIndex !== -1`), otherwise keep the whole tail. -/
def ncodeSelectBody (html : List Char) : Option (List Char) :=
  match findSub html startPattern with
  | none => none
  | some startMatch =>
    let content := html.drop startMatch
    let endIndex :=
      match findFrom content "<div".toList 1 with
      | none => none
      | some ci => divScanLoop content (2 * content.length + 2) 1 ci none
    match endIndex with
    | some e => some (content.take e)
    | none => some content

/-- `extractNovelContent` of `scrape_novel_ncode.js`: marker not found
reports a diagnostic and returns `''`; otherwise the selected content goes
through `<br>`-conversion, `stripHtmlTags`, `decodeHtmlEntities` and the
line cleanup, in that order. -/
def extractNovelContent (html : String) : String :=
  match ncodeSelectBody html.toList with
  | none => ""
  | some content => normalizeContent content

/-- `extractTitle` of `scrape_novel_ncode.js`: the `<title>` capture with
the first occurrence of the fixed site suffix removed (string `replace`,
first occurrence only); `'不明なタイトル'` when the regex does not match. -/
def extractTitle (html : String) : String :=
  match findTitle html.toList with
  | some t => String.mk (replaceFirstL " - 小説家になろう".toList [] t)
  | none => "不明なタイトル"

/-- Does the body of a candidate href contain `n9734kw/` followed by a
digit (the `[^"]*n9734kw\/\d+[^"]*` core of the link pattern)? -/
def hasChapterRef : List Char → Bool
  | [] => false
  | c :: cs =>
    ("n9734kw/".toList.isPrefixOf (c :: cs) &&
      (match (c :: cs).drop 8 with
       | d :: _ => d.isDigit
       | [] => false))
    || hasChapterRef cs

/-- Attempted match of `/href="([^"]*n9734kw\/\d+[^"]*)"/` at the start of
`s`: the capture cannot contain `"`, so the closing quote is the first `"`
after `href="` and the capture is everything before it; the match succeeds
iff that body contains `n9734kw/` followed by a digit.  Returns the
capture and the total match length. -/
def matchHrefAt (s : List Char) : Option (List Char × Nat) :=
  if "href=\"".toList.isPrefixOf s then
    match findSub (s.drop 6) "\"".toList with
    | none => none
    | some j =>
      let body := (s.drop 6).take j
      if hasChapterRef body then some (body, 6 + j + 1) else none
  else none

/-- The global `linkPattern.exec` loop of the ncode `extractChapterLinks`:
successive leftmost matches, continuing after each match (the skip counter
consumes the remainder of a match without rescanning it); each capture is
kept verbatim when it starts with `http`, otherwise prefixed with
`https://ncode.syosetu.com`. -/
def scanLinks : List Char → Nat → List String
  | [], _ => []
  | _ :: cs, k + 1 => scanLinks cs k
  | c :: cs, 0 =>
    match matchHrefAt (c :: cs) with
    | some (body, total) =>
      (if "http".toList.isPrefixOf body then String.mk body
       else "https://ncode.syosetu.com" ++ String.mk body) :: scanLinks cs (total - 1)
    | none => scanLinks cs 0

/-- `extractChapterLinks` of `scrape_novel_ncode.js`: scan, deduplicate by
exact string equality, and `links.sort()` (default JavaScript sort =
lexicographic; on the deduplicated list any correct sort yields the unique
sorted permutation, embedded as insertion sort). -/
def extractChapterLinks (html : String) : List String :=
  List.insertionSort sortLe (dedupAcc [] (scanLinks html.toList 0))

end Ncode

namespace Kakuyomu

open Scrape

/-- Attempted match of `/<div[^>]*MARK[^>]*>([\s\S]*?)<\/div>/` at the
start of `s` (for a marker word containing no `>`): the attribute region
cannot contain `>`, so the opening tag closes at the first `>` after
`<div` and matches iff the marker occurs inside that region; the lazy
capture then runs to the first following `</div>`, which must exist. -/
def matchDivCaptureAt (mark : List Char) (s : List Char) : Option (List Char) :=
  if "<div".toList.isPrefixOf s then
    match findSub (s.drop 4) ">".toList with
    | none => none
    | some j =>
      if (findSub ((s.drop 4).take j) mark).isSome then
        match findSub ((s.drop 4).drop (j + 1)) "</div>".toList with
        | none => none
        | some k => some (((s.drop 4).drop (j + 1)).take k)
      else none
  else none

/-- Leftmost (non-global) match of the marked-`<div>` capture regex. -/
def findDivCapture (mark : List Char) : List Char → Option (List Char)
  | [] => none
  | c :: cs =>
    match matchDivCaptureAt mark (c :: cs) with
    | some cap => some cap
    | none => findDivCapture mark cs

/-- Attempted match of
`/<p[^>]*widget-episodeBody-paragraph[^>]*>([\s\S]*?)<\/p>/` at the start
of `s`, returning the *full* match text (the `/g` form of `String.match`
collects whole matches, not captures) and the total match length. -/
def matchPAt (s : List Char) : Option (List Char × Nat) :=
  if "<p".toList.isPrefixOf s then
    match findSub (s.drop 2) ">".toList with
    | none => none
    | some j =>
      if (findSub ((s.drop 2).take j) "widget-episodeBody-paragraph".toList).isSome then
        match findSub ((s.drop 2).drop (j + 1)) "</p>".toList with
        | none => none
        | some k => some (s.take (2 + j + 1 + k + 4), 2 + j + 1 + k + 4)
      else none
  else none

/-- The global paragraph scan (pattern 3 of the kakuyomu
`extractNovelContent`), continuing after each match. -/
def pScan : List Char → Nat → List (List Char)
  | [], _ => []
  | _ :: cs, k + 1 => pScan cs k
  | c :: cs, 0 =>
    match matchPAt (c :: cs) with
    | some (m, total) => m :: pScan cs (total - 1)
    | none => pScan cs 0

/-- The strategy chain of the kakuyomu `extractNovelContent`:
pattern 1 `widget-episodeBody`, else pattern 2 `widget-workEpisode`, else
the paragraph matches joined with `'\n'` (`String.match` with `/g` yields
`null` when there is no match, so an empty match list is a failure). -/
def kakuyomuSelect (html : List Char) : Option (List Char) :=
  match findDivCapture "widget-episodeBody".toList html with
  | some c => some c
  | none =>
    match findDivCapture "widget-workEpisode".toList html with
    | some c => some c
    | none =>
      match pScan html 0 with
      | [] => none
      | m :: ms => some (List.intercalate "\n".toList (m :: ms))

/-- `extractNovelContent` of the kakuyomu adapter script: the strategy
chain, then the same `<br>`/strip/decode/clean pipeline as ncode;
`''` with a diagnostic when no pattern matches. -/
def extractNovelContent (html : String) : String :=
  match kakuyomuSelect html.toList with
  | none => ""
  | some content => normalizeContent content

/-- Attempted match of `/<h1[^>]*widget-workTitle[^>]*>([^<]*)<\/h1>/` at
the start of `s`: marker inside the `>`-free attribute region, then a
non-`<` capture followed immediately by `</h1>`. -/
def matchH1At (s : List Char) : Option (List Char) :=
  if "<h1".toList.isPrefixOf s then
    match findSub (s.drop 3) ">".toList with
    | none => none
    | some j =>
      if (findSub ((s.drop 3).take j) "widget-workTitle".toList).isSome then
        match findSub ((s.drop 3).drop (j + 1)) "<".toList with
        | none => none
        | some k =>
          if "</h1>".toList.isPrefixOf (((s.drop 3).drop (j + 1)).drop k) then
            some (((s.drop 3).drop (j + 1)).take k)
          else none
      else none
  else none

/-- Leftmost match of the `widget-workTitle` heading regex. -/
def findH1Title : List Char → Option (List Char)
  | [] => none
  | c :: cs =>
    match matchH1At (c :: cs) with
    | some t => some t
    | none => findH1Title cs

/-- `extractTitle` of the kakuyomu adapter script: the `<title>` capture
with the first occurrence of `' - カクヨム'` removed and trimmed; else the
`widget-workTitle` heading capture, trimmed; else `'不明なタイトル'`. -/
def extractTitle (html : String) : String :=
  match findTitle html.toList with
  | some t => String.mk (trimL (replaceFirstL " - カクヨム".toList [] t))
  | none =>
    match findH1Title html.toList with
    | some t => String.mk (trimL t)
    | none => "不明なタイトル"

/-- Attempted match of `/href="(\/works\/\d+\/episodes\/\d+)"/` at the
start of `s`: the greedy digit runs are maximal (a shorter run would leave
a digit where `/` or `"` must follow), so the match is the literal prefix
`href="/works/`, a nonempty maximal digit run, `/episodes/`, a nonempty
maximal digit run, and `"`.  Returns the two digit runs and the total
match length. -/
def matchKHrefAt (s : List Char) : Option (List Char × List Char × Nat) :=
  if "href=\"/works/".toList.isPrefixOf s then
    let afterW := s.drop 13
    let w := afterW.takeWhile Char.isDigit
    if w = [] then none
    else
      let afterWD := afterW.drop w.length
      if "/episodes/".toList.isPrefixOf afterWD then
        let afterE := afterWD.drop 10
        let e := afterE.takeWhile Char.isDigit
        if e = [] then none
        else
          if (afterE.drop e.length).head? = some '"' then
            some (w, e, 13 + w.length + 10 + e.length + 1)
          else none
      else none
  else none

/-- The global `linkPattern.exec` loop of the kakuyomu
`extractChapterLinks`: each capture is prefixed with
`https://kakuyomu.jp`. -/
def scanLinks : List Char → Nat → List String
  | [], _ => []
  | _ :: cs, k + 1 => scanLinks cs k
  | c :: cs, 0 =>
    match matchKHrefAt (c :: cs) with
    | some (w, e, total) =>
      String.mk ("https://kakuyomu.jp/works/".toList ++ w ++ "/episodes/".toList ++ e)
        :: scanLinks cs (total - 1)
    | none => scanLinks cs 0

/-- `extractChapterLinks` of the kakuyomu adapter script: scan,
deduplicate by exact string equality, `links.sort()`. -/
def extractChapterLinks (html : String) : List String :=
  List.insertionSort sortLe (dedupAcc [] (scanLinks html.toList 0))

end Kakuyomu

namespace Scrape

/-- A parsed URL as consumed by the validators: the `protocol` (with its
trailing colon) and `hostname` properties read by the validation code,
plus the remainder needed to rebuild the `href` that is fetched. -/
structure UrlParts where
  protocol : String
  hostname : String
  pathRest : String
deriving DecidableEq

/-- The `href` property: the serialised URL passed to `fetchUrl`. -/
def UrlParts.href (u : UrlParts) : String :=
  u.protocol ++ "//" ++ u.hostname ++ u.pathRest

/-- Equality of embedded run outcomes is decidable (needed to evaluate
the validators on concrete inputs). -/
instance {e a : Type} [DecidableEq e] [DecidableEq a] : DecidableEq (Except e a) := fun x y =>
  match x, y with
  | Except.error e1, Except.error e2 =>
    if h : e1 = e2 then isTrue (by rw [h]) else isFalse (fun hc => h (Except.error.inj hc))
  | Except.error _, Except.ok _ => isFalse (fun hc => Except.noConfusion hc)
  | Except.ok _, Except.error _ => isFalse (fun hc => Except.noConfusion hc)
  | Except.ok a1, Except.ok a2 =>
    if h : a1 = a2 then isTrue (by rw [h]) else isFalse (fun hc => h (Except.ok.inj hc))

/-- Characters allowed in a URL scheme after its leading letter. -/
def schemeChar (c : Char) : Bool := c.isAlphanum || c = '+' || c = '-' || c = '.'

/-- Modelled from the spec: `new URL(urlString)` is Node's WHATWG URL
parser, an external collaborator of this repository ("parses the input as
a URL", spec §4.3).  It is embedded minimally as `scheme://host[rest]`:
an alphabetic-led scheme of scheme characters, a nonempty host running to
the first `/`, `?`, `#` or `:`, scheme and host lowercased as the real
parser normalises them, and an empty path serialised as `/`.  A string
not of this shape makes the constructor throw, which the validators catch
and turn into a non-zero exit. -/
def parseUrl? (s : String) : Option UrlParts :=
  match findSub s.toList "://".toList with
  | none => none
  | some i =>
    let scheme := s.toList.take i
    if !scheme.isEmpty && scheme.all schemeChar && (scheme.headD '0').isAlpha then
      let after := s.toList.drop (i + 3)
      let host := after.takeWhile fun c => !(c = '/' || c = '?' || c = '#' || c = ':')
      if host = [] then none
      else
        let rest := after.drop host.length
        some { protocol := String.mk (scheme.map Char.toLower) ++ ":"
             , hostname := String.mk (host.map Char.toLower)
             , pathRest := if rest = [] then "/" else String.mk rest }
    else none

/-- The `SUPPORTED_SCRAPERS` domain-to-script table of `scrape_novel.js`. -/
def SUPPORTED_SCRAPERS (hostname : String) : Option String :=
  if hostname = "ncode.syosetu.com" then some "scrape_novel_ncode.js"
  else if hostname = "kakuyomu.jp" then some "scrape_novel_kakuyomu.js"
  else none

/-- `validateUrlAndGetScraper` of `scrape_novel.js`: parse failure,
non-`https:` protocol, or a hostname outside `SUPPORTED_SCRAPERS` each
print a diagnostic and `process.exit(1)` (embedded as `Except.error ()`);
otherwise the matching scraper script is returned. -/
def validateUrlAndGetScraper (urlString : String) : Except Unit String :=
  match parseUrl? urlString with
  | none => Except.error ()
  | some url =>
    if url.protocol ≠ "https:" then Except.error ()
    else
      match SUPPORTED_SCRAPERS url.hostname with
      | none => Except.error ()
      | some scraper => Except.ok scraper

/-- `chapterNum.toString().padStart(3, '0')`. -/
def padStart3 (n : Nat) : String :=
  let s := toString n
  String.mk (List.replicate (3 - s.length) '0') ++ s

/-- The per-chapter artifact name `chapter_NNN.txt`. -/
def chapterFileName (n : Nat) : String :=
  "chapter_" ++ padStart3 n ++ ".txt"

end Scrape

namespace Ncode

open Scrape

/-- `const ALLOWED_DOMAIN = 'ncode.syosetu.com'`. -/
def ALLOWED_DOMAIN : String := "ncode.syosetu.com"

/-- `validateUrl` of `scrape_novel_ncode.js`: parse failure, non-`https:`
protocol, or a hostname different from `ALLOWED_DOMAIN` each print a
diagnostic and `process.exit(1)` (embedded as `Except.error ()`);
otherwise the parsed URL is returned. -/
def validateUrl (urlString : String) : Except Unit UrlParts :=
  match parseUrl? urlString with
  | none => Except.error ()
  | some url =>
    if url.protocol ≠ "https:" then Except.error ()
    else if url.hostname ≠ ALLOWED_DOMAIN then Except.error ()
    else Except.ok url

/-- The URLs passed to `fetchUrl` in one run of the ncode `main` after
successful validation, in call order: the listing page `novelUrl.href`,
then — when the listing fetch succeeds — every discovered chapter link
(each iteration of the download loop calls `fetchUrl(chapterUrl)`
whatever that fetch's outcome; a listing-fetch failure is caught only by
the top-level handler, which exits, so no chapter is fetched). -/
def fetchedUrls (fetch : String → Except String String) (novelUrl : UrlParts) : List String :=
  novelUrl.href ::
    (match fetch novelUrl.href with
     | Except.error _ => []
     | Except.ok html => extractChapterLinks html)

/-- The URLs passed to `fetchUrl` in one full run of the ncode script on
`urlString`: none at all when validation exits the process. -/
def runFetched (fetch : String → Except String String) (urlString : String) : List String :=
  match validateUrl urlString with
  | Except.error _ => []
  | Except.ok u => fetchedUrls fetch u

/-- A listing page whose only chapter href is an absolute URL on a
foreign host that still matches the ncode chapter-link pattern. -/
def evilListing : String := "<a href=\"https://evil.example/n9734kw/1\">c1</a>"

/-- A network returning the listing above for the validated listing URL. -/
def evilNet (u : String) : Except String String :=
  if u = "https://ncode.syosetu.com/n9734kw/" then Except.ok evilListing else Except.ok ""

end Ncode

namespace Kakuyomu

open Scrape

/-- The chapter-download loop body of the kakuyomu `main`, with the
network passed in explicitly (`Except.error` = a rejected `fetchUrl`
promise).  Per entry: fetch the chapter HTML — a rejection is caught by
the loop's `try/catch`, reported, and the loop continues — extract the
body, and persist `(chapter_{i+1 padded}.txt, body)` only when the body
is non-empty.  Returns the persisted artifacts in creation order. -/
def chapterLoop (fetch : String → Except String String) :
    Nat → List String → List (String × String)
  | _, [] => []
  | i, url :: rest =>
    (match fetch url with
     | Except.error _ => []
     | Except.ok chapterHtml =>
       let chapterContent := extractNovelContent chapterHtml
       if chapterContent ≠ "" then [(chapterFileName (i + 1), chapterContent)] else [])
    ++ chapterLoop fetch (i + 1) rest

/-- `const downloadCount = Math.min(3, chapterLinks.length)` followed by
the loop over `chapterLinks[0..downloadCount)` with `chapterNum = i + 1`. -/
def downloadChapters (fetch : String → Except String String)
    (chapterLinks : List String) : List (String × String) :=
  chapterLoop fetch 0 (chapterLinks.take (min 3 chapterLinks.length))

/-- A listing page carrying five discoverable chapter links. -/
def listingFive : String :=
  String.join
    ["<a href=\"/works/1/episodes/1\"></a><a href=\"/works/1/episodes/2\"></a>",
     "<a href=\"/works/1/episodes/3\"></a><a href=\"/works/1/episodes/4\"></a>",
     "<a href=\"/works/1/episodes/5\"></a>"]

/-- A chapter page whose body extraction is non-empty. -/
def chapterPage : String := "<div class=\"widget-episodeBody\">本文テキスト</div>"

/-- A network in which the fetch of the second discovered chapter is
rejected and every other fetch succeeds. -/
def fetchFailSecond (u : String) : Except String String :=
  if u = "https://kakuyomu.jp/works/1/episodes/2" then Except.error "network error"
  else Except.ok chapterPage

end Kakuyomu

namespace Scrape

theorem strLtB_nil_right : ∀ a : List Char, strLtB a [] = false
  | [] => rfl
  | _ :: _ => rfl

theorem strLtB_total : ∀ a b : List Char, strLtB a b = false ∨ strLtB b a = false
  | a, [] => Or.inl (strLtB_nil_right a)
  | [], _ :: _ => Or.inr (strLtB_nil_right _)
  | a :: as, b :: bs => by
    by_cases h1 : a.toNat < b.toNat
    · right
      simp only [strLtB]
      rw [if_neg (by omega), if_pos h1]
    · by_cases h2 : b.toNat < a.toNat
      · left
        simp only [strLtB]
        rw [if_neg h1, if_pos h2]
      · rcases strLtB_total as bs with h | h
        · left
          simp only [strLtB]
          rw [if_neg h1, if_neg h2]
          exact h
        · right
          simp only [strLtB]
          rw [if_neg h2, if_neg h1]
          exact h

theorem strLtB_false_trans :
    ∀ a b c : List Char, strLtB b a = false → strLtB c b = false → strLtB c a = false
  | [], _, c, _, _ => strLtB_nil_right c
  | _ :: _, [], _, h1, _ => by simp [strLtB] at h1
  | _ :: _, _ :: _, [], _, h2 => by simp [strLtB] at h2
  | x :: xs, y :: ys, z :: zs, h1, h2 => by
    simp only [strLtB] at h1 h2 ⊢
    by_cases hyx : y.toNat < x.toNat
    · rw [if_pos hyx] at h1
      simp at h1
    · rw [if_neg hyx] at h1
      by_cases hzy : z.toNat < y.toNat
      · rw [if_pos hzy] at h2
        simp at h2
      · rw [if_neg hzy] at h2
        rw [if_neg (show ¬ z.toNat < x.toNat by omega)]
        by_cases hxz : x.toNat < z.toNat
        · rw [if_pos hxz]
        · rw [if_neg hxz]
          rw [if_neg (show ¬ x.toNat < y.toNat by omega)] at h1
          rw [if_neg (show ¬ y.toNat < z.toNat by omega)] at h2
          exact strLtB_false_trans xs ys zs h1 h2

theorem char_toNat_inj {a b : Char} (h : a.toNat = b.toNat) : a = b := by
  have h2 := congrArg Char.ofNat h
  rwa [Char.ofNat_toNat, Char.ofNat_toNat] at h2

theorem strLtB_iff_lt : ∀ a b : List Char, strLtB a b = true ↔ a < b
  | a, [] => by
    rw [strLtB_nil_right a]
    constructor
    · intro h
      exact absurd h (by simp)
    · intro h
      cases h
  | [], _ :: _ => by
    constructor
    · intro _
      exact List.Lex.nil
    · intro _
      rfl
  | a :: as, b :: bs => by
    simp only [strLtB]
    by_cases h1 : a.toNat < b.toNat
    · rw [if_pos h1]
      constructor
      · intro _
        exact List.Lex.rel h1
      · intro _
        rfl
    · by_cases h2 : b.toNat < a.toNat
      · rw [if_neg h1, if_pos h2]
        constructor
        · intro h
          exact absurd h (by simp)
        · intro h
          cases h with
          | cons h => exact absurd h2 (by omega)
          | rel h => exact absurd h h1
      · rw [if_neg h1, if_neg h2]
        have hab : a = b := char_toNat_inj (by omega)
        subst hab
        constructor
        · intro h
          exact List.Lex.cons ((strLtB_iff_lt as bs).mp h)
        · intro h
          cases h with
          | cons h => exact (strLtB_iff_lt as bs).mpr h
          | rel h => exact absurd h h1

theorem sortLe_iff_le (a b : String) : sortLe a b ↔ a ≤ b := by
  rw [String.le_iff_toList_le, ← not_lt, ← strLtB_iff_lt b.toList a.toList]
  show strLtB b.toList a.toList = false ↔ _
  simp

theorem dedupAcc_nodup : ∀ (ls acc : List String), acc.Nodup → (dedupAcc acc ls).Nodup
  | [], _, h => h
  | l :: ls, acc, h => by
    by_cases hm : l ∈ acc
    · rw [dedupAcc, if_pos hm]
      exact dedupAcc_nodup ls acc h
    · rw [dedupAcc, if_neg hm]
      refine dedupAcc_nodup ls (acc ++ [l]) ?_
      simp [List.nodup_append, h, hm]

theorem mem_dedupAcc : ∀ (ls acc : List String) (a : String), a ∈ dedupAcc acc ls → a ∈ acc ∨ a ∈ ls
  | [], _, _, h => Or.inl h
  | l :: ls, acc, a, h => by
    by_cases hm : l ∈ acc
    · rw [dedupAcc, if_pos hm] at h
      rcases mem_dedupAcc ls acc a h with h | h
      · exact Or.inl h
      · exact Or.inr (List.mem_cons_of_mem l h)
    · rw [dedupAcc, if_neg hm] at h
      rcases mem_dedupAcc ls (acc ++ [l]) a h with h | h
      · rcases List.mem_append.mp h with h | h
        · exact Or.inl h
        · exact Or.inr (by simp [List.mem_singleton.mp h])
      · exact Or.inr (List.mem_cons_of_mem l h)

end Scrape

open Scrape in
/-- C4: for every HTML input, `extractChapterLinks` (both adapters)
returns a duplicate-free list sorted in lexicographic order of the URL
string; an input repeating the same chapter path three times yields
exactly one entry, and the URLs `…/episodes/9` and `…/episodes/10`
come out in lexicographic order — `/10` before `/9` — not numeric order. -/
theorem c4_chapter_links_dedup_lex_sorted :
    (∀ html : String,
        (Kakuyomu.extractChapterLinks html).Nodup ∧
          List.Sorted (· ≤ ·) (Kakuyomu.extractChapterLinks html) ∧
          (Ncode.extractChapterLinks html).Nodup ∧
          List.Sorted (· ≤ ·) (Ncode.extractChapterLinks html)) ∧
      Kakuyomu.extractChapterLinks
          "<a href=\"/works/1/episodes/7\">a</a><a href=\"/works/1/episodes/7\">b</a><a href=\"/works/1/episodes/7\">c</a>"
        = ["https://kakuyomu.jp/works/1/episodes/7"] ∧
      Kakuyomu.extractChapterLinks
          "<a href=\"/works/1/episodes/9\">x</a><a href=\"/works/1/episodes/10\">y</a>"
        = ["https://kakuyomu.jp/works/1/episodes/10", "https://kakuyomu.jp/works/1/episodes/9"] := by
  haveI : IsTrans String sortLe :=
    ⟨fun a b c h1 h2 => strLtB_false_trans a.toList b.toList c.toList h1 h2⟩
  haveI : IsTotal String sortLe :=
    ⟨fun a b => (strLtB_total b.toList a.toList).imp id id⟩
  refine ⟨fun html => ⟨?_, ?_, ?_, ?_⟩, by decide, by decide⟩
  · exact (List.perm_insertionSort sortLe _).nodup_iff.mpr
      (dedupAcc_nodup _ [] List.nodup_nil)
  · exact (List.sorted_insertionSort sortLe _).imp fun h => (sortLe_iff_le _ _).mp h
  · exact (List.perm_insertionSort sortLe _).nodup_iff.mpr
      (dedupAcc_nodup _ [] List.nodup_nil)
  · exact (List.sorted_insertionSort sortLe _).imp fun h => (sortLe_iff_le _ _).mp h

namespace Kakuyomu

open Scrape

theorem matchKHrefAt_shape {s w e : List Char} {t : Nat}
    (h : matchKHrefAt s = some (w, e, t)) :
    w ≠ [] ∧ e ≠ [] ∧ w.all Char.isDigit = true ∧ e.all Char.isDigit = true := by
  simp only [matchKHrefAt] at h
  split_ifs at h with h1 h2 h3 h4 h5
  simp only [Option.some.injEq, Prod.mk.injEq] at h
  obtain ⟨hw, he, -⟩ := h
  subst hw
  subst he
  exact ⟨h2, h4, List.all_takeWhile, List.all_takeWhile⟩

theorem scanLinks_shape : ∀ (s : List Char) (k : Nat) (l : String), l ∈ scanLinks s k →
    ∃ w e : List Char, w ≠ [] ∧ e ≠ [] ∧ w.all Char.isDigit = true ∧ e.all Char.isDigit = true ∧
      l = String.mk ("https://kakuyomu.jp/works/".toList ++ w ++ "/episodes/".toList ++ e)
  | [], _, l, h => by simp [scanLinks] at h
  | _ :: cs, k + 1, l, h => scanLinks_shape cs k l (by rwa [scanLinks] at h)
  | c :: cs, 0, l, h => by
    rw [scanLinks] at h
    rcases hm : matchKHrefAt (c :: cs) with _ | ⟨w, e, t⟩
    · rw [hm] at h
      exact scanLinks_shape cs 0 l h
    · rw [hm] at h
      rcases List.mem_cons.mp h with h | h
      · obtain ⟨hw, he, hwd, hed⟩ := matchKHrefAt_shape hm
        exact ⟨w, e, hw, he, hwd, hed, h⟩
      · exact scanLinks_shape cs (t - 1) l h

end Kakuyomu

open Scrape in
/-- C10: every element of the list returned by the kakuyomu adapter's
`extractChapterLinks` is `https://kakuyomu.jp` concatenated with an href
path of the form `/works/<digits>/episodes/<digits>` — an absolute https
URL on the kakuyomu.jp host — regardless of what absolute or malformed
hrefs appear in the input. -/
theorem c10_kakuyomu_links_shape :
    ∀ html l : String, l ∈ Kakuyomu.extractChapterLinks html →
      ∃ w e : List Char, w ≠ [] ∧ e ≠ [] ∧ w.all Char.isDigit = true ∧ e.all Char.isDigit = true ∧
        l = String.mk ("https://kakuyomu.jp/works/".toList ++ w ++ "/episodes/".toList ++ e) := by
  intro html l hmem
  have h1 : l ∈ dedupAcc [] (Kakuyomu.scanLinks html.toList 0) :=
    (List.mem_insertionSort sortLe).mp hmem
  rcases mem_dedupAcc _ _ _ h1 with h | h
  · exact absurd h (List.not_mem_nil l)
  · exact Kakuyomu.scanLinks_shape _ _ _ h

open Scrape in
/-- Witness for C10: the discovered link of a concrete relative href is
the absolute kakuyomu.jp URL built from its two digit runs. -/
theorem c10_kakuyomu_links_shape_witness :
    ∃ w e : List Char, w ≠ [] ∧ e ≠ [] ∧ w.all Char.isDigit = true ∧ e.all Char.isDigit = true ∧
      "https://kakuyomu.jp/works/1/episodes/9"
        = String.mk ("https://kakuyomu.jp/works/".toList ++ w ++ "/episodes/".toList ++ e) :=
  c10_kakuyomu_links_shape "<a href=\"/works/1/episodes/9\">x</a>"
    "https://kakuyomu.jp/works/1/episodes/9" (by decide)

namespace Kakuyomu

open Scrape


theorem chapterLoop_mem (fetch : String → Except String String) :
    ∀ (ls : List String) (i : Nat) (a : String × String),
      a ∈ chapterLoop fetch i ls →
      ∃ j url html, j < ls.length ∧ ls[j]? = some url ∧ fetch url = Except.ok html ∧
        extractNovelContent html ≠ "" ∧
        a = (chapterFileName (i + j + 1), extractNovelContent html)
  | [], _, a, h => by simp [chapterLoop] at h
  | url :: rest, i, a, h => by
    rw [chapterLoop] at h
    rcases List.mem_append.mp h with h | h
    · rcases hf : fetch url with err | html
      · rw [hf] at h
        simp at h
      · rw [hf] at h
        have h2 : a ∈ (if extractNovelContent html ≠ "" then
            [(chapterFileName (i + 1), extractNovelContent html)] else []) := h
        by_cases hc : extractNovelContent html ≠ ""
        · rw [if_pos hc] at h2
          have ha := List.mem_singleton.mp h2
          exact ⟨0, url, html, by simp, by simp, hf, hc, by simpa using ha⟩
        · rw [if_neg hc] at h2
          simp at h2
    · obtain ⟨j, u2, h2, hj, hu, hf, hc, ha⟩ := chapterLoop_mem fetch rest (i + 1) a h
      refine ⟨j + 1, u2, h2, by simpa using hj, by simpa using hu, hf, hc, ?_⟩
      have harith : i + 1 + j + 1 = i + (j + 1) + 1 := by omega
      rwa [harith] at ha

end Kakuyomu

open Scrape in
/-- C2: every artifact produced by the chapter-download loop comes from a
chapter entry within the download cap whose fetch succeeded and whose
extracted body is non-empty, and is named by the 1-based ordinal of that
entry in discovered order, zero-padded to 3 digits; a fetch failure for
one chapter is caught and the loop continues.  Concretely: 5 discovered
links with a cap of 3 and a failing fetch for chapter 2 produce exactly
the artifacts numbered 001 and 003 (ordinal numbering, not sequential
count). -/
theorem c2_download_loop_ordinal_and_isolation :
    (∀ (fetch : String → Except String String) (links : List String) (a : String × String),
        a ∈ Kakuyomu.downloadChapters fetch links →
        ∃ j url html, j < min 3 links.length ∧ links[j]? = some url ∧
          fetch url = Except.ok html ∧ Kakuyomu.extractNovelContent html ≠ "" ∧
          a = (chapterFileName (j + 1), Kakuyomu.extractNovelContent html)) ∧
      (Kakuyomu.extractChapterLinks Kakuyomu.listingFive).length = 5 ∧
      (Kakuyomu.downloadChapters Kakuyomu.fetchFailSecond
          (Kakuyomu.extractChapterLinks Kakuyomu.listingFive)).map Prod.fst
        = ["chapter_001.txt", "chapter_003.txt"] := by
  refine ⟨?_, by decide, by decide⟩
  intro fetch links a h
  obtain ⟨j, url, html, hj, hu, hf, hc, ha⟩ :=
    Kakuyomu.chapterLoop_mem fetch (links.take (min 3 links.length)) 0 a h
  rw [List.length_take] at hj
  refine ⟨j, url, html, by omega, ?_, hf, hc, by simpa using ha⟩
  rw [← hu]
  exact (List.getElem?_take_of_lt (by omega)).symm

open Scrape in
/-- Witness for C2: in the failing scenario the artifact
`chapter_003.txt` indeed comes from an in-range, successfully fetched
chapter with non-empty body and ordinal name. -/
theorem c2_download_loop_ordinal_and_isolation_witness :
    ∃ j url html,
      j < min 3 (Kakuyomu.extractChapterLinks Kakuyomu.listingFive).length ∧
        (Kakuyomu.extractChapterLinks Kakuyomu.listingFive)[j]? = some url ∧
        Kakuyomu.fetchFailSecond url = Except.ok html ∧
        Kakuyomu.extractNovelContent html ≠ "" ∧
        ("chapter_003.txt", Kakuyomu.extractNovelContent Kakuyomu.chapterPage)
          = (chapterFileName (j + 1), Kakuyomu.extractNovelContent html) :=
  c2_download_loop_ordinal_and_isolation.1 Kakuyomu.fetchFailSecond
    (Kakuyomu.extractChapterLinks Kakuyomu.listingFive)
    ("chapter_003.txt", Kakuyomu.extractNovelContent Kakuyomu.chapterPage) (by decide)

namespace Scrape

theorem replaceAllL_head_not_mem (pat repl s : List Char) (p : Char)
    (hp : pat.head? = some p) (h : p ∉ s) : replaceAllL pat repl s = s := by
  induction s with
  | nil => rfl
  | cons c cs ih =>
    rcases pat with _ | ⟨q, qs⟩
    · cases hp
    · have hq : q = p := by simpa using hp
      subst hq
      have hcond : ¬ (q :: qs ≠ [] ∧ (q :: qs).isPrefixOf (c :: cs) = true) := by
        rintro ⟨-, hpre⟩
        simp only [List.isPrefixOf, Bool.and_eq_true, beq_iff_eq] at hpre
        refine h ?_
        rw [hpre.1]
        exact List.mem_cons_self c cs
      show replAux (q :: qs) repl (c :: cs) 0 = c :: cs
      rw [replAux, if_neg hcond]
      exact congrArg (c :: ·) (ih (fun hm => h (List.mem_cons_of_mem c hm)))

theorem decodeL_amp_free {s : List Char} (h : '&' ∉ s) : decodeL s = s := by
  unfold decodeL
  rw [replaceAllL_head_not_mem "&nbsp;".toList _ s '&' (by decide) h,
    replaceAllL_head_not_mem "&amp;".toList _ s '&' (by decide) h,
    replaceAllL_head_not_mem "&lt;".toList _ s '&' (by decide) h,
    replaceAllL_head_not_mem "&gt;".toList _ s '&' (by decide) h,
    replaceAllL_head_not_mem "&quot;".toList _ s '&' (by decide) h,
    replaceAllL_head_not_mem "&#39;".toList _ s '&' (by decide) h]

end Scrape

open Scrape in
/-- Counterexample to C3: `decodeHtmlEntities` is not idempotent.  On
`"&amp;amp;"` one pass yields `"&amp;"` (the replacement scan does not
rescan replaced text) and a second pass decodes that further to `"&"`. -/
theorem c3_decode_entities_not_idempotent :
    decodeHtmlEntities "&amp;amp;" = "&amp;" ∧
      decodeHtmlEntities (decodeHtmlEntities "&amp;amp;") = "&" ∧
      decodeHtmlEntities (decodeHtmlEntities "&amp;amp;") ≠ decodeHtmlEntities "&amp;amp;" :=
  ⟨by decide, by decide, by decide⟩

open Scrape in
/-- C3 (amended): `decodeHtmlEntities` is total, maps exactly the fixed
entity table to literal characters, leaves unknown entities unchanged,
and is idempotent on ampersand-free strings, where it acts as the
identity; idempotence on arbitrary strings fails (see the
counterexample), because a decoded ampersand can recombine with following
text into a new entity. -/
theorem c3_decode_entities_amended :
    (∀ x : String, '&' ∉ x.toList →
        decodeHtmlEntities x = x ∧
          decodeHtmlEntities (decodeHtmlEntities x) = decodeHtmlEntities x) ∧
      decodeHtmlEntities "&nbsp;" = " " ∧ decodeHtmlEntities "&amp;" = "&" ∧
      decodeHtmlEntities "&lt;" = "<" ∧ decodeHtmlEntities "&gt;" = ">" ∧
      decodeHtmlEntities "&quot;" = "\"" ∧ decodeHtmlEntities "&#39;" = "'" ∧
      decodeHtmlEntities "&copy; &unknown;" = "&copy; &unknown;" := by
  refine ⟨fun x h => ?_, by decide, by decide, by decide, by decide, by decide, by decide,
    by decide⟩
  have hid : decodeHtmlEntities x = x := by
    show String.mk (decodeL x.toList) = x
    rw [decodeL_amp_free h]
    rfl
  exact ⟨hid, by rw [hid, hid]⟩

open Scrape in
/-- Witness for the amended C3 at a concrete ampersand-free string. -/
theorem c3_decode_entities_amended_witness :
    decodeHtmlEntities "plain text" = "plain text" ∧
      decodeHtmlEntities (decodeHtmlEntities "plain text") = decodeHtmlEntities "plain text" :=
  c3_decode_entities_amended.1 "plain text" (by decide)

open Scrape in
/-- C1 (code defect, exhibited): on the claim's own nesting example the
ncode scan does not implement the specified balanced count.
`currentIndex` is initialised at the first nested `<div`, but the loop
only counts openings found strictly after `currentIndex`, so the first
nested `<div` is never added to `divCount`; the counter therefore reaches
zero at the first nested `</div>`, the extraction cuts there, and the
result is `"inner"` — not the boundary-correct `"innermore"` that the
balanced scan described by the specification must produce. -/
theorem c1_ncode_scan_truncates_at_nested_close :
    Ncode.extractNovelContent
        "<div class=\"js-novel-text p-novel__text\"><div>inner</div>more</div>"
      = "inner" ∧
      ("inner" : String) ≠ "innermore" :=
  ⟨by decide, by decide⟩

open Scrape in
/-- C9: whenever boundary selection picks content `c`, the extraction
result of either adapter is exactly the fixed-order pipeline — `<br>`
tags to literal newlines, then tag stripping, then entity decoding, then
the split/trim/drop-empty/rejoin line cleanup — applied to `c`; and the
order matters: stripping before decoding keeps an entity-encoded bracket
as text, while decoding first would let the stripper eat it. -/
theorem c9_extraction_pipeline_order :
    (∀ (html : String) (c : List Char), Ncode.ncodeSelectBody html.toList = some c →
        Ncode.extractNovelContent html
          = String.mk (cleanLines (decodeL (stripL (brToNewlines c))))) ∧
      (∀ (html : String) (c : List Char), Kakuyomu.kakuyomuSelect html.toList = some c →
        Kakuyomu.extractNovelContent html
          = String.mk (cleanLines (decodeL (stripL (brToNewlines c))))) ∧
      String.mk (cleanLines (decodeL (stripL "&lt;b&gt;x".toList))) = "<b>x" ∧
      String.mk (cleanLines (stripL (decodeL "&lt;b&gt;x".toList))) = "x" := by
  refine ⟨?_, ?_, by decide, by decide⟩
  · intro html c h
    show (match Ncode.ncodeSelectBody html.toList with
          | none => ""
          | some content => normalizeContent content) = _
    rw [h]
    rfl
  · intro html c h
    show (match Kakuyomu.kakuyomuSelect html.toList with
          | none => ""
          | some content => normalizeContent content) = _
    rw [h]
    rfl

open Scrape in
/-- Witness for C9 at concrete pages of both adapters. -/
theorem c9_extraction_pipeline_order_witness :
    Ncode.extractNovelContent "<div class=\"js-novel-text p-novel__text\">a&lt;b"
        = String.mk (cleanLines (decodeL (stripL (brToNewlines
            "<div class=\"js-novel-text p-novel__text\">a&lt;b".toList)))) ∧
      Kakuyomu.extractNovelContent "<div class=\"widget-episodeBody\">x</div>"
        = String.mk (cleanLines (decodeL (stripL (brToNewlines "x".toList)))) :=
  ⟨c9_extraction_pipeline_order.1 _ _ (by decide),
   c9_extraction_pipeline_order.2.1 _ _ (by decide)⟩

open Scrape in
/-- C7: when no body-extraction strategy of an adapter's chain matches,
`extractNovelContent` does not raise — it is a total function that
surfaces the failure as the empty string, which the caller detects by an
emptiness check.  For ncode the chain is the single marker pattern; for
kakuyomu all three patterns must fail. -/
theorem c7_extract_body_empty_on_no_match :
    (∀ html : String, findSub html.toList Ncode.startPattern = none →
        Ncode.extractNovelContent html = "") ∧
      (∀ html : String,
        Kakuyomu.findDivCapture "widget-episodeBody".toList html.toList = none →
        Kakuyomu.findDivCapture "widget-workEpisode".toList html.toList = none →
        Kakuyomu.pScan html.toList 0 = [] →
        Kakuyomu.extractNovelContent html = "") := by
  constructor
  · intro html h
    have hsel : Ncode.ncodeSelectBody html.toList = none := by
      unfold Ncode.ncodeSelectBody
      rw [h]
    show (match Ncode.ncodeSelectBody html.toList with
          | none => ""
          | some content => normalizeContent content) = ""
    rw [hsel]
  · intro html h1 h2 h3
    have hsel : Kakuyomu.kakuyomuSelect html.toList = none := by
      unfold Kakuyomu.kakuyomuSelect
      rw [h1, h2, h3]
    show (match Kakuyomu.kakuyomuSelect html.toList with
          | none => ""
          | some content => normalizeContent content) = ""
    rw [hsel]

open Scrape in
/-- Witness for C7 on a page matching no strategy of either adapter. -/
theorem c7_extract_body_empty_on_no_match_witness :
    Ncode.extractNovelContent "<p>plain page</p>" = "" ∧
      Kakuyomu.extractNovelContent "<p>plain page</p>" = "" :=
  ⟨c7_extract_body_empty_on_no_match.1 "<p>plain page</p>" (by decide),
   c7_extract_body_empty_on_no_match.2 "<p>plain page</p>" (by decide) (by decide) (by decide)⟩

open Scrape in
/-- Counterexample to C8: `extractTitle` can return the empty string —
an empty `<title></title>` element matches the title strategy with an
empty capture, which both adapters return unchecked; the result is
neither non-empty nor the sentinel. -/
theorem c8_extract_title_empty_counterexample :
    Ncode.extractTitle "<title></title>" = "" ∧
      Kakuyomu.extractTitle "<title></title>" = "" ∧
      ("" : String) ≠ "不明なタイトル" :=
  ⟨by decide, by decide, by decide⟩

open Scrape in
/-- C8 (amended): `extractTitle` tries the document title element with
the fixed site-name suffix stripped (first occurrence only; the kakuyomu
adapter additionally trims and falls back to the `widget-workTitle`
heading, while the ncode adapter has no heading fallback), and returns
the sentinel `'不明なタイトル'` exactly when no strategy matches.  No
strategy throws — the functions are total — but the result can be the
empty string, e.g. for an empty title element. -/
theorem c8_extract_title_amended :
    ∀ html : String,
      (findTitle html.toList = none → Ncode.extractTitle html = "不明なタイトル") ∧
        (∀ t, findTitle html.toList = some t →
          Ncode.extractTitle html = String.mk (replaceFirstL " - 小説家になろう".toList [] t)) ∧
        (findTitle html.toList = none → Kakuyomu.findH1Title html.toList = none →
          Kakuyomu.extractTitle html = "不明なタイトル") ∧
        (∀ t, findTitle html.toList = some t →
          Kakuyomu.extractTitle html = String.mk (trimL (replaceFirstL " - カクヨム".toList [] t))) ∧
        (∀ t, findTitle html.toList = none → Kakuyomu.findH1Title html.toList = some t →
          Kakuyomu.extractTitle html = String.mk (trimL t)) := by
  intro html
  refine ⟨?_, ?_, ?_, ?_, ?_⟩
  · intro h
    show (match findTitle html.toList with
          | some t => String.mk (replaceFirstL " - 小説家になろう".toList [] t)
          | none => "不明なタイトル") = _
    rw [h]
  · intro t h
    show (match findTitle html.toList with
          | some t => String.mk (replaceFirstL " - 小説家になろう".toList [] t)
          | none => "不明なタイトル") = _
    rw [h]
  · intro h1 h2
    show (match findTitle html.toList with
          | some t => String.mk (trimL (replaceFirstL " - カクヨム".toList [] t))
          | none =>
            match Kakuyomu.findH1Title html.toList with
            | some t => String.mk (trimL t)
            | none => "不明なタイトル") = _
    rw [h1, h2]
  · intro t h
    show (match findTitle html.toList with
          | some t => String.mk (trimL (replaceFirstL " - カクヨム".toList [] t))
          | none =>
            match Kakuyomu.findH1Title html.toList with
            | some t => String.mk (trimL t)
            | none => "不明なタイトル") = _
    rw [h]
  · intro t h1 h2
    show (match findTitle html.toList with
          | some t => String.mk (trimL (replaceFirstL " - カクヨム".toList [] t))
          | none =>
            match Kakuyomu.findH1Title html.toList with
            | some t => String.mk (trimL t)
            | none => "不明なタイトル") = _
    rw [h1, h2]

open Scrape in
/-- Witness for the amended C8: sentinel on a title-less page, suffix
strip on a matching title, heading fallback for kakuyomu. -/
theorem c8_extract_title_amended_witness :
    Ncode.extractTitle "no title element" = "不明なタイトル" ∧
      Ncode.extractTitle "<title>T - 小説家になろう</title>"
        = String.mk (replaceFirstL " - 小説家になろう".toList [] "T - 小説家になろう".toList) ∧
      Kakuyomu.extractTitle "<h1 class=\"widget-workTitle\"> T </h1>"
        = String.mk (trimL " T ".toList) :=
  ⟨(c8_extract_title_amended "no title element").1 (by decide),
   (c8_extract_title_amended "<title>T - 小説家になろう</title>").2.1
     "T - 小説家になろう".toList (by decide),
   (c8_extract_title_amended "<h1 class=\"widget-workTitle\"> T </h1>").2.2.2.2
     " T ".toList (by decide) (by decide)⟩


open Scrape in
/-- C6: URL validation is a single pass/fail gate run before any network
activity.  The dispatcher's `validateUrlAndGetScraper` succeeds exactly
when the input parses, uses the `https:` scheme, and has a hostname
registered in `SUPPORTED_SCRAPERS` — and on success it returns exactly
that host's scraper script, binding the URL to its source's adapter;
otherwise it exits non-zero.  The ncode adapter's `validateUrl` succeeds
exactly when the hostname equals its allowed domain, and a failed gate
means the run invokes the fetcher on no URL at all. -/
theorem c6_validation_gate :
    (∀ s : String,
        (∃ scraper, validateUrlAndGetScraper s = Except.ok scraper) ↔
          ∃ u, parseUrl? s = some u ∧ u.protocol = "https:" ∧
            (SUPPORTED_SCRAPERS u.hostname).isSome = true) ∧
      (∀ (s : String) (u : UrlParts) (scraper : String),
        parseUrl? s = some u → validateUrlAndGetScraper s = Except.ok scraper →
          SUPPORTED_SCRAPERS u.hostname = some scraper) ∧
      (∀ s : String,
        (∃ u, Ncode.validateUrl s = Except.ok u) ↔
          ∃ u, parseUrl? s = some u ∧ u.protocol = "https:" ∧
            u.hostname = Ncode.ALLOWED_DOMAIN) ∧
      (∀ (s : String) (fetch : String → Except String String),
        Ncode.validateUrl s = Except.error () → Ncode.runFetched fetch s = []) := by
  refine ⟨fun s => ⟨?_, ?_⟩, ?_, fun s => ⟨?_, ?_⟩, ?_⟩
  · rintro ⟨scraper, h⟩
    unfold validateUrlAndGetScraper at h
    rcases hp : parseUrl? s with _ | u
    · rw [hp] at h
      cases h
    · rw [hp] at h
      replace h : (if u.protocol ≠ "https:" then Except.error ()
          else match SUPPORTED_SCRAPERS u.hostname with
            | none => Except.error ()
            | some sc => Except.ok sc) = Except.ok scraper := h
      by_cases hpr : u.protocol ≠ "https:"
      · rw [if_pos hpr] at h
        cases h
      · rw [if_neg hpr] at h
        push_neg at hpr
        rcases hs : SUPPORTED_SCRAPERS u.hostname with _ | sc
        · rw [hs] at h
          cases h
        · exact ⟨u, rfl, hpr, by rw [hs]; rfl⟩
  · rintro ⟨u, hp, hpr, hs⟩
    rcases ho : SUPPORTED_SCRAPERS u.hostname with _ | sc
    · rw [ho] at hs
      cases hs
    · refine ⟨sc, ?_⟩
      show (match parseUrl? s with
            | none => Except.error ()
            | some url =>
              if url.protocol ≠ "https:" then Except.error ()
              else match SUPPORTED_SCRAPERS url.hostname with
                | none => Except.error ()
                | some scraper => Except.ok scraper) = Except.ok sc
      rw [hp]
      show (if u.protocol ≠ "https:" then Except.error ()
            else match SUPPORTED_SCRAPERS u.hostname with
              | none => Except.error ()
              | some scraper => Except.ok scraper) = Except.ok sc
      rw [if_neg (fun hh => hh hpr), ho]
  · intro s u scraper hp h
    unfold validateUrlAndGetScraper at h
    rw [hp] at h
    replace h : (if u.protocol ≠ "https:" then Except.error ()
        else match SUPPORTED_SCRAPERS u.hostname with
          | none => Except.error ()
          | some sc => Except.ok sc) = Except.ok scraper := h
    by_cases hpr : u.protocol ≠ "https:"
    · rw [if_pos hpr] at h
      cases h
    · rw [if_neg hpr] at h
      rcases hs : SUPPORTED_SCRAPERS u.hostname with _ | sc
      · rw [hs] at h
        cases h
      · rw [hs] at h
        cases h
        rfl
  · rintro ⟨u, h⟩
    unfold Ncode.validateUrl at h
    rcases hp : parseUrl? s with _ | v
    · rw [hp] at h
      cases h
    · rw [hp] at h
      replace h : (if v.protocol ≠ "https:" then Except.error ()
          else if v.hostname ≠ Ncode.ALLOWED_DOMAIN then Except.error ()
          else Except.ok v) = Except.ok u := h
      by_cases hpr : v.protocol ≠ "https:"
      · rw [if_pos hpr] at h
        cases h
      · rw [if_neg hpr] at h
        push_neg at hpr
        by_cases hh : v.hostname ≠ Ncode.ALLOWED_DOMAIN
        · rw [if_pos hh] at h
          cases h
        · push_neg at hh
          exact ⟨v, rfl, hpr, hh⟩
  · rintro ⟨u, hp, hpr, hh⟩
    refine ⟨u, ?_⟩
    show (match parseUrl? s with
          | none => Except.error ()
          | some url =>
            if url.protocol ≠ "https:" then Except.error ()
            else if url.hostname ≠ Ncode.ALLOWED_DOMAIN then Except.error ()
            else Except.ok url) = Except.ok u
    rw [hp]
    show (if u.protocol ≠ "https:" then Except.error ()
          else if u.hostname ≠ Ncode.ALLOWED_DOMAIN then Except.error ()
          else Except.ok u) = Except.ok u
    rw [if_neg (fun hc => hc hpr), if_neg (fun hc => hc hh)]
  · intro s fetch h
    unfold Ncode.runFetched
    rw [h]

open Scrape in
/-- Witness for C6: the dispatcher binds a valid kakuyomu URL to the
kakuyomu scraper script, and a non-secure (`http:`) URL makes the ncode
run fetch nothing at all. -/
theorem c6_validation_gate_witness :
    SUPPORTED_SCRAPERS
        (⟨"https:", "kakuyomu.jp", "/works/1"⟩ : UrlParts).hostname
      = some "scrape_novel_kakuyomu.js" ∧
      Ncode.runFetched (fun _ => Except.ok "") "http://ncode.syosetu.com/x" = [] :=
  ⟨c6_validation_gate.2.1 "https://kakuyomu.jp/works/1"
      ⟨"https:", "kakuyomu.jp", "/works/1"⟩ "scrape_novel_kakuyomu.js"
      (by decide) (by decide),
   c6_validation_gate.2.2.2 "http://ncode.syosetu.com/x" (fun _ => Except.ok "") (by decide)⟩

namespace Ncode

open Scrape


theorem scanLinks_body_shape : ∀ (s : List Char) (k : Nat) (l : String), l ∈ scanLinks s k →
    ∃ body : List Char,
      ("http".toList.isPrefixOf body = true ∧ l = String.mk body) ∨
      ("http".toList.isPrefixOf body = false ∧
        l = "https://ncode.syosetu.com" ++ String.mk body)
  | [], _, l, h => by simp [scanLinks] at h
  | _ :: cs, k + 1, l, h => scanLinks_body_shape cs k l (by rwa [scanLinks] at h)
  | c :: cs, 0, l, h => by
    rw [scanLinks] at h
    rcases hm : matchHrefAt (c :: cs) with _ | ⟨body, total⟩
    · rw [hm] at h
      exact scanLinks_body_shape cs 0 l h
    · rw [hm] at h
      rcases List.mem_cons.mp h with h | h
      · refine ⟨body, ?_⟩
        by_cases hp : "http".toList.isPrefixOf body = true
        · rw [if_pos hp] at h
          exact Or.inl ⟨hp, h⟩
        · rw [if_neg hp] at h
          exact Or.inr ⟨Bool.not_eq_true _ ▸ Bool.of_not_eq_true hp, h⟩
      · exact scanLinks_body_shape cs (total - 1) l h

end Ncode

open Scrape in
/-- Counterexample to C5: the download loop fetches discovered hrefs
without re-validating their host — an href body starting with `http` is
returned verbatim by `extractChapterLinks` — so a run can pass a URL on
a non-registered host to the HTTP fetcher.  With the valid start URL
`https://ncode.syosetu.com/n9734kw/` and a listing containing
`href="https://evil.example/n9734kw/1"`, that foreign URL appears among
the fetched URLs, and its host is not a registered source domain. -/
theorem c5_allow_list_counterexample :
    "https://evil.example/n9734kw/1"
        ∈ Ncode.runFetched Ncode.evilNet "https://ncode.syosetu.com/n9734kw/" ∧
      (parseUrl? "https://evil.example/n9734kw/1").map UrlParts.hostname
        = some "evil.example" ∧
      SUPPORTED_SCRAPERS "evil.example" = none ∧
      ("evil.example" : String) ≠ "ncode.syosetu.com" ∧
      ("evil.example" : String) ≠ "kakuyomu.jp" :=
  ⟨by decide, by decide, by decide, by decide, by decide⟩

open Scrape in
/-- C5 (amended): the allow-list gate constrains only the
operator-supplied URL.  On a validated ncode run the listing URL's host
equals the registered domain and the fetched URLs are exactly the
validated `href` followed by the discovered chapter links, which are not
re-validated: a discovered href body starting with `http` is fetched
verbatim, and only the remaining (relative) bodies are prefixed with
`https://ncode.syosetu.com`. -/
theorem c5_fetched_urls_amended :
    ∀ (s : String) (u : UrlParts) (fetch : String → Except String String) (html : String),
      Ncode.validateUrl s = Except.ok u → fetch u.href = Except.ok html →
      u.hostname = "ncode.syosetu.com" ∧
        Ncode.runFetched fetch s = u.href :: Ncode.extractChapterLinks html ∧
        ∀ l ∈ Ncode.extractChapterLinks html, ∃ body : List Char,
          ("http".toList.isPrefixOf body = true ∧ l = String.mk body) ∨
          ("http".toList.isPrefixOf body = false ∧
            l = "https://ncode.syosetu.com" ++ String.mk body) := by
  intro s u fetch html hval hfetch
  have hhost : u.hostname = "ncode.syosetu.com" := by
    unfold Ncode.validateUrl at hval
    rcases hp : parseUrl? s with _ | v
    · rw [hp] at hval
      cases hval
    · rw [hp] at hval
      replace hval : (if v.protocol ≠ "https:" then Except.error ()
          else if v.hostname ≠ Ncode.ALLOWED_DOMAIN then Except.error ()
          else Except.ok v) = Except.ok u := hval
      by_cases hpr : v.protocol ≠ "https:"
      · rw [if_pos hpr] at hval
        cases hval
      · rw [if_neg hpr] at hval
        by_cases hh : v.hostname ≠ Ncode.ALLOWED_DOMAIN
        · rw [if_pos hh] at hval
          cases hval
        · rw [if_neg hh] at hval
          cases hval
          exact not_not.mp hh
  refine ⟨hhost, ?_, ?_⟩
  · unfold Ncode.runFetched
    rw [hval]
    show Ncode.fetchedUrls fetch u = _
    unfold Ncode.fetchedUrls
    rw [hfetch]
  · intro l hl
    have h1 : l ∈ dedupAcc [] (Ncode.scanLinks html.toList 0) :=
      (List.mem_insertionSort sortLe).mp hl
    rcases mem_dedupAcc _ _ _ h1 with h | h
    · exact absurd h (List.not_mem_nil l)
    · exact Ncode.scanLinks_body_shape _ _ _ h

open Scrape in
/-- Witness for the amended C5 on the counterexample run. -/
theorem c5_fetched_urls_amended_witness :
    (⟨"https:", "ncode.syosetu.com", "/n9734kw/"⟩ : UrlParts).hostname
        = "ncode.syosetu.com" ∧
      Ncode.runFetched Ncode.evilNet "https://ncode.syosetu.com/n9734kw/"
        = (⟨"https:", "ncode.syosetu.com", "/n9734kw/"⟩ : UrlParts).href
            :: Ncode.extractChapterLinks Ncode.evilListing ∧
      ∀ l ∈ Ncode.extractChapterLinks Ncode.evilListing, ∃ body : List Char,
        ("http".toList.isPrefixOf body = true ∧ l = String.mk body) ∨
        ("http".toList.isPrefixOf body = false ∧
          l = "https://ncode.syosetu.com" ++ String.mk body) :=
  c5_fetched_urls_amended "https://ncode.syosetu.com/n9734kw/"
    ⟨"https:", "ncode.syosetu.com", "/n9734kw/"⟩ Ncode.evilNet Ncode.evilListing
    (by decide) (by decide)
